import Mathlib

/-!
Shallow embedding of the command-gateway backend (FastAPI/SQLAlchemy app).

The embedding follows the source files:
  * `app/db/models.py`      — data model (User, Rule, Command, AuditLog, ApprovalRequest)
  * `app/utils.py`          — `format_command_result`
  * `app/routers/commands.py` — `validate_command`, `match_command_against_rules`,
                                `execute_command`, `submit_command`
  * `app/routers/approvals.py` — `review_approval`
  * `app/routers/users.py`  — `update_user_credits`

Database sessions are modelled by an explicit `DBState` record; every commit of a
request handler becomes a pure state transformation, and an aborted transaction
(SQLAlchemy rollback / HTTPException raised before commit) leaves the state
unchanged.  Python's `re.search` engine is a capability parameter
`ReSearch : String → String → Option Bool`: `none` stands for `re.error`
(the pattern fails to compile), `some b` for a successful search returning a
match (`b = true`) or no match (`b = false`).  Timestamps (`datetime.utcnow`)
are an abstract clock value `now : Nat` supplied by the environment.
-/

namespace Gateway

/-- `app/db/models.py` `UserRole`. -/
inductive UserRole
  | ADMIN
  | MEMBER
deriving DecidableEq, Repr

/-- `app/db/models.py` `RuleAction`. -/
inductive RuleAction
  | AUTO_ACCEPT
  | AUTO_REJECT
  | REQUIRE_APPROVAL
deriving DecidableEq, Repr

/-- `app/db/models.py` `CommandStatus`. -/
inductive CommandStatus
  | ACCEPTED
  | REJECTED
  | EXECUTED
  | PENDING_APPROVAL
deriving DecidableEq, Repr

/-- `app/db/models.py` `User` row.  `credits` is an SQL `Integer`, which can in
principle hold negative values, so it is `Int`. -/
structure User where
  id : Nat
  username : String
  role : UserRole
  credits : Int
deriving DecidableEq, Repr

/-- `app/db/models.py` `Rule` row. -/
structure Rule where
  id : Nat
  pattern : String
  action : RuleAction
  description : Option String
  priority : Int
deriving DecidableEq, Repr

/-- `app/db/models.py` `Command` row. -/
structure Command where
  id : Nat
  command_text : String
  status : CommandStatus
  user_id : Nat
  rule_id : Option Nat
  credits_deducted : Nat
  result : Option String
  submitted_at : Nat
  executed_at : Option Nat
deriving DecidableEq, Repr

/-- `app/db/models.py` `AuditLog` row.  `details` is `json.dumps` of a flat
dict in the source; it is modelled as the association list of rendered
key/value pairs. -/
structure AuditLog where
  user_id : Nat
  action : String
  details : List (String × String)
deriving DecidableEq, Repr

/-- `app/db/models.py` `ApprovalRequest` row. -/
structure ApprovalRequest where
  id : Nat
  command_id : Nat
  requested_by : Nat
  status : String
  approved_by : Option Nat
  reviewed_at : Option Nat
deriving DecidableEq, Repr

/-- The committed database: one list per table, plus the autoincrement
counters for the two tables whose fresh primary keys the handlers read back
(`db.flush()` / `db.refresh`). -/
structure DBState where
  users : List User
  rules : List Rule
  commands : List Command
  approvals : List ApprovalRequest
  audit_logs : List AuditLog
  next_command_id : Nat
  next_approval_id : Nat
deriving DecidableEq, Repr

/-- Python's `x or default` idiom on an optional string: `None` and the
empty string are falsy and select the default. -/
def pyOr (s : Option String) (dflt : String) : String :=
  match s with
  | none => dflt
  | some d => if d = "" then dflt else d

/-- `app/utils.py` `format_command_result`. -/
def format_command_result (command : String) (status : String) : String :=
  "[MOCK] Command \x27" ++ command ++ "\x27 would be executed with status: " ++ status

/-! ### Command Validator (`validate_command`, commands.py lines 16-42) -/

/-- The characters Python `str.isspace()` accepts, which are exactly what
`str.strip()` with no argument removes: the ASCII whitespace `\x09`-`\x0D`
and space `\x20`, the information separators `\x1C`-`\x1F`, `\x85` (NEL),
`\xA0` (NBSP), `\u1680` (Ogham space mark), `\u2000`-`\u200A` (the Unicode
space separators), `\u2028` (line separator), `\u2029` (paragraph
separator), `\u202F` (narrow NBSP), `\u205F` (medium mathematical space)
and `\u3000` (ideographic space). -/
def isPySpace (c : Char) : Bool :=
  (0x09 ≤ c.toNat && c.toNat ≤ 0x0D) ||
  (0x1C ≤ c.toNat && c.toNat ≤ 0x1F) ||
  c.toNat = 0x20 || c.toNat = 0x85 || c.toNat = 0xA0 || c.toNat = 0x1680 ||
  (0x2000 ≤ c.toNat && c.toNat ≤ 0x200A) ||
  c.toNat = 0x2028 || c.toNat = 0x2029 || c.toNat = 0x202F ||
  c.toNat = 0x205F || c.toNat = 0x3000

/-- Python `str.strip()` on the character list: drop whitespace from both ends. -/
def pyStrip (cs : List Char) : List Char :=
  ((cs.dropWhile isPySpace).reverse.dropWhile isPySpace).reverse

/-- The character class `[\x00-\x08\x0B\x0C\x0E-\x1F]` from the first error
pattern of `validate_command`. -/
def isBadControl (c : Char) : Bool :=
  c.toNat ≤ 0x08 || c.toNat = 0x0B || c.toNat = 0x0C ||
    (0x0E ≤ c.toNat && c.toNat ≤ 0x1F)

/-- The character class `[;&|]` used by the `^[;&|]` and `[;&|]$` patterns. -/
def isOpChar (c : Char) : Bool :=
  c = ';' || c = '&' || c = '|'

/-- `re.search` of `^[;&|]` (no MULTILINE flag): the first character is an
operator. -/
def startsWithOp : List Char → Bool
  | [] => false
  | c :: _ => isOpChar c

/-- `re.search` of `[;&|]$` on text with no trailing newline (the text has
been stripped): the last character is an operator. -/
def endsWithOp (cs : List Char) : Bool :=
  startsWithOp cs.reverse

/-- `re.search` of `cc+` for a literal character `c` (the patterns `;;+`,
`\|\|+`, `&&+`): the text contains two adjacent occurrences of `c`. -/
def hasDoubled (c : Char) : List Char → Bool
  | [] => false
  | [_] => false
  | a :: b :: rest => (a = c && b = c) || hasDoubled c (b :: rest)

/-- `validate_command` (commands.py lines 16-42).  Strips the text, rejects
the empty result, then applies the six `error_patterns` in order, returning
the first matching pattern's message; returns `(true, "")` if none match. -/
def validate_command (command_text : String) : Bool × String :=
  let cs := pyStrip command_text.data
  if cs.isEmpty then (false, "Command cannot be empty")
  else if cs.any isBadControl then (false, "Command contains invalid control characters")
  else if startsWithOp cs then (false, "Command cannot start with operators")
  else if endsWithOp cs then (false, "Command cannot end with operators")
  else if hasDoubled ';' cs then (false, "Invalid syntax: multiple semicolons")
  else if hasDoubled '|' cs then (false, "Invalid syntax: multiple pipes")
  else if hasDoubled '&' cs then (false, "Invalid syntax: multiple ampersands")
  else (true, "")

/-! ### Rule Matcher (`match_command_against_rules`, commands.py lines 45-60) -/

/-- The regex capability: `reSearch pattern text` is `none` when the pattern
fails to compile (`re.error`), `some true`/`some false` for the boolean
outcome of `re.search(pattern, text)`. -/
abbrev ReSearch := String → String → Option Bool

/-- The SQL `ORDER BY priority ASC, id ASC` total preorder on rules. -/
def ruleLe (a b : Rule) : Prop :=
  a.priority < b.priority ∨ (a.priority = b.priority ∧ a.id ≤ b.id)

instance : DecidableRel ruleLe := fun a b => by
  unfold ruleLe; infer_instance

instance : IsTotal Rule ruleLe where
  total a b := by
    unfold ruleLe
    rcases lt_trichotomy a.priority b.priority with h | h | h
    · exact Or.inl (Or.inl h)
    · rcases Nat.le_total a.id b.id with h2 | h2
      · exact Or.inl (Or.inr ⟨h, h2⟩)
      · exact Or.inr (Or.inr ⟨h.symm, h2⟩)
    · exact Or.inr (Or.inl h)

instance : IsTrans Rule ruleLe where
  trans a b c hab hbc := by
    unfold ruleLe at *
    rcases hab with h1 | ⟨h1, h1i⟩ <;> rcases hbc with h2 | ⟨h2, h2i⟩
    · exact Or.inl (h1.trans h2)
    · exact Or.inl (h2 ▸ h1)
    · exact Or.inl (h1 ▸ h2)
    · exact Or.inr ⟨h1.trans h2, h1i.trans h2i⟩

/-- `db.query(Rule).order_by(Rule.priority.asc(), Rule.id.asc()).all()`:
the rule table, sorted by `(priority, id)` ascending (stably). -/
def sortRules (rules : List Rule) : List Rule :=
  List.insertionSort ruleLe rules

/-- The `for rule in rules` loop of `match_command_against_rules`: return the
first rule whose pattern search succeeds; a pattern raising `re.error`
(`reSearch` returns `none`) or not matching is passed over. -/
def matchLoop (reSearch : ReSearch) (command_text : String) : List Rule → Option Rule
  | [] => none
  | r :: rest =>
    match reSearch r.pattern command_text with
    | some true => some r
    | _ => matchLoop reSearch command_text rest

/-- `match_command_against_rules` (commands.py lines 45-60).  The source
returns the pair `(rule, rule.action)` or `(None, None)`; the second
component is determined by the first, so only the rule is returned here. -/
def match_command_against_rules (reSearch : ReSearch) (command_text : String)
    (rules : List Rule) : Option Rule :=
  matchLoop reSearch command_text (sortRules rules)

/-! ### Execution step (`execute_command`, commands.py lines 63-101) -/

/-- `execute_command` (commands.py lines 63-101), the shared execution step.
It mutates the `command` and `user` rows and stages one audit entry; the
surrounding transaction commits all three together.  `none` models the
`ValueError("Insufficient credits")` raised (and rolled back) when
`user.credits <= 0`. -/
def execute_command (now : Nat) (command : Command) (user : User) :
    Option (Command × User × AuditLog) :=
  if user.credits ≤ 0 then none
  else
    let user2 : User := { user with credits := user.credits - 1 }
    let command2 : Command :=
      { command with
          credits_deducted := 1
          status := CommandStatus.EXECUTED
          result := some (format_command_result command.command_text "SUCCESS")
          executed_at := some now }
    let audit_log : AuditLog :=
      { user_id := user.id
        action := "COMMAND_EXECUTED"
        details :=
          [("command_id", toString command.id),
           ("command_text", command.command_text),
           ("credits_deducted", toString (1 : Nat))] }
    some (command2, user2, audit_log)

/-- Write a (possibly updated) user row back: SQLAlchemy identity-map update
of the row with the same primary key. -/
def putUser (users : List User) (u : User) : List User :=
  users.map (fun v => if v.id = u.id then u else v)

/-- Write an updated command row back by primary key. -/
def putCommand (commands : List Command) (c : Command) : List Command :=
  commands.map (fun d => if d.id = c.id then c else d)

/-- Write an updated approval-request row back by primary key. -/
def putApproval (approvals : List ApprovalRequest) (a : ApprovalRequest) :
    List ApprovalRequest :=
  approvals.map (fun b => if b.id = a.id then a else b)

/-- An HTTP error response `HTTPException(status_code, detail)`. -/
structure HttpError where
  status_code : Nat
  detail : String
deriving DecidableEq, Repr

/-! ### Command submission (`submit_command`, commands.py lines 104-245) -/

/-- The `elif action == RuleAction.AUTO_ACCEPT or matched_rule is None`
block of `submit_command` (commands.py lines 193-209): add the command row,
flush, run `execute_command`; a `ValueError` rolls everything back and
surfaces as a 402. -/
def execCommit (st : DBState) (now : Nat) (command0 : Command) (u : User) :
    DBState × Except HttpError Command :=
  match execute_command now command0 u with
  | none => (st, Except.error ⟨402, "Insufficient credits"⟩)
  | some (command2, user2, audit_log) =>
    ({ st with
        users := putUser st.users user2
        commands := st.commands ++ [command2]
        audit_logs := st.audit_logs ++ [audit_log]
        next_command_id := st.next_command_id + 1 },
     Except.ok command2)

/-- The REJECTED command row persisted on a validation failure
(commands.py lines 125-130). -/
def validationRejectCmd (st : DBState) (u : User) (text : String) (now : Nat) : Command :=
  { id := st.next_command_id
    command_text := text
    status := CommandStatus.REJECTED
    user_id := u.id
    rule_id := none
    credits_deducted := 0
    result := some ("Invalid command: " ++ (validate_command text).2)
    submitted_at := now
    executed_at := none }

/-- The audit entry written for a validation failure (commands.py lines 136-145). -/
def validationRejectAudit (st : DBState) (u : User) (text : String) : AuditLog :=
  { user_id := u.id
    action := "COMMAND_REJECTED"
    details :=
      [("command_id", toString st.next_command_id),
       ("command_text", text),
       ("reason", "VALIDATION_ERROR: " ++ (validate_command text).2)] }

/-- The interim command row created before dispatch with the default status
`ACCEPTED` (commands.py lines 160-166). -/
def initialCommand (st : DBState) (u : User) (text : String) (now : Nat)
    (matched : Option Rule) : Command :=
  { id := st.next_command_id
    command_text := text
    status := CommandStatus.ACCEPTED
    user_id := u.id
    rule_id := matched.map (fun r => r.id)
    credits_deducted := 0
    result := none
    submitted_at := now
    executed_at := none }

/-- The command row committed on an AUTO_REJECT match (commands.py lines 168-171). -/
def autoRejectCmd (st : DBState) (u : User) (text : String) (now : Nat)
    (rule : Rule) : Command :=
  { initialCommand st u text now (some rule) with
      status := CommandStatus.REJECTED
      result := some ("Command rejected by rule: " ++ pyOr rule.description rule.pattern) }

/-- The audit entry written for an AUTO_REJECT match (commands.py lines 178-187). -/
def autoRejectAudit (st : DBState) (u : User) (text : String) (rule : Rule) : AuditLog :=
  { user_id := u.id
    action := "COMMAND_REJECTED"
    details :=
      [("command_id", toString st.next_command_id),
       ("command_text", text),
       ("rule_id", toString rule.id),
       ("reason", "AUTO_REJECT")] }

/-- The command row committed on a REQUIRE_APPROVAL match (commands.py lines 211-214). -/
def pendingCmd (st : DBState) (u : User) (text : String) (now : Nat)
    (rule : Rule) : Command :=
  { initialCommand st u text now (some rule) with
      status := CommandStatus.PENDING_APPROVAL
      result := some "Command requires admin approval" }

/-- The approval-request row created on a REQUIRE_APPROVAL match
(commands.py lines 220-224). -/
def pendingApprovalRow (st : DBState) (u : User) : ApprovalRequest :=
  { id := st.next_approval_id
    command_id := st.next_command_id
    requested_by := u.id
    status := "pending"
    approved_by := none
    reviewed_at := none }

/-- The audit entry written for a REQUIRE_APPROVAL match
(commands.py lines 230-238). -/
def pendingAudit (st : DBState) (u : User) (text : String) (rule : Rule) : AuditLog :=
  { user_id := u.id
    action := "COMMAND_PENDING_APPROVAL"
    details :=
      [("command_id", toString st.next_command_id),
       ("command_text", text),
       ("rule_id", toString rule.id)] }

/-- `submit_command` (commands.py lines 104-245).  Returns the committed
state together with the response: `Except.ok` carries the `CommandResponse`
row, `Except.error` an `HTTPException` (in which case every transaction was
rolled back and the state is returned unchanged). -/
def submit_command (reSearch : ReSearch) (now : Nat) (st : DBState)
    (current_user : User) (command_text : String) :
    DBState × Except HttpError Command :=
  if (validate_command command_text).1 = false then
    -- validation failure: persist a REJECTED command and a rejection audit entry
    ({ st with
        commands := st.commands ++ [validationRejectCmd st current_user command_text now]
        audit_logs := st.audit_logs ++ [validationRejectAudit st current_user command_text]
        next_command_id := st.next_command_id + 1 },
     Except.ok (validationRejectCmd st current_user command_text now))
  else if current_user.credits ≤ 0 then
    (st, Except.error ⟨402, "Insufficient credits. Please contact admin to add more credits."⟩)
  else
    match match_command_against_rules reSearch command_text st.rules with
    | some rule =>
      match rule.action with
      | RuleAction.AUTO_REJECT =>
        ({ st with
            commands := st.commands ++ [autoRejectCmd st current_user command_text now rule]
            audit_logs := st.audit_logs ++ [autoRejectAudit st current_user command_text rule]
            next_command_id := st.next_command_id + 1 },
         Except.ok (autoRejectCmd st current_user command_text now rule))
      | RuleAction.AUTO_ACCEPT =>
        execCommit st now (initialCommand st current_user command_text now (some rule)) current_user
      | RuleAction.REQUIRE_APPROVAL =>
        ({ st with
            commands := st.commands ++ [pendingCmd st current_user command_text now rule]
            approvals := st.approvals ++ [pendingApprovalRow st current_user]
            audit_logs := st.audit_logs ++ [pendingAudit st current_user command_text rule]
            next_command_id := st.next_command_id + 1
            next_approval_id := st.next_approval_id + 1 },
         Except.ok (pendingCmd st current_user command_text now rule))
    | none =>
      -- no rule matched: default accept, execute immediately
      execCommit st now (initialCommand st current_user command_text now none) current_user

/-! ### Approval review (`review_approval`, approvals.py lines 47-144) -/

/-- `review_approval` (approvals.py lines 47-144).  `action` is the raw
string of `ApprovalAction.action`.  On every error branch the transaction is
rolled back and the state is returned unchanged; in particular, on an
"approve" whose execution raises `ValueError`, the already-staged
approval-status mutation is discarded by the rollback. -/
def review_approval (now : Nat) (st : DBState) (approval_id : Nat)
    (admin : User) (action : String) (reason : Option String) :
    DBState × Except HttpError String :=
  match st.approvals.find? (fun a => a.id == approval_id && a.status == "pending") with
  | none => (st, Except.error ⟨404, "Approval request not found or already reviewed"⟩)
  | some approval =>
    match st.commands.find? (fun c => c.id == approval.command_id) with
    | none => (st, Except.error ⟨404, "Command not found"⟩)
    | some command =>
      match st.users.find? (fun u => u.id == command.user_id) with
      | none => (st, Except.error ⟨404, "User not found"⟩)
      | some user =>
        if action = "approve" then
          let approval2 : ApprovalRequest :=
            { approval with
                status := "approved"
                approved_by := some admin.id
                reviewed_at := some now }
          match execute_command now command user with
          | none => (st, Except.error ⟨402, "Insufficient credits"⟩)
          | some (command2, user2, exec_audit) =>
            let approve_audit : AuditLog :=
              { user_id := admin.id
                action := "COMMAND_APPROVED"
                details :=
                  [("approval_id", toString approval.id),
                   ("command_id", toString command.id),
                   ("command_text", command.command_text),
                   ("requester", user.username)] }
            ({ st with
                users := putUser st.users user2
                commands := putCommand st.commands command2
                approvals := putApproval st.approvals approval2
                audit_logs := st.audit_logs ++ [exec_audit, approve_audit] },
             Except.ok "Command approved and executed")
        else if action = "reject" then
          let approval2 : ApprovalRequest :=
            { approval with
                status := "rejected"
                approved_by := some admin.id
                reviewed_at := some now }
          let command2 : Command :=
            { command with
                status := CommandStatus.REJECTED
                result := some ("Rejected by admin: " ++ pyOr reason "No reason provided") }
          let audit_log : AuditLog :=
            { user_id := admin.id
              action := "COMMAND_REJECTED_BY_ADMIN"
              details :=
                [("approval_id", toString approval.id),
                 ("command_id", toString command.id),
                 ("command_text", command.command_text),
                 ("requester", user.username),
                 ("reason", reason.getD "null")] }
          ({ st with
              commands := putCommand st.commands command2
              approvals := putApproval st.approvals approval2
              audit_logs := st.audit_logs ++ [audit_log] },
           Except.ok "Command rejected")
        else
          (st, Except.error ⟨400, "Invalid action. Use \x27approve\x27 or \x27reject\x27"⟩)

/-! ### Admin credits override (`update_user_credits`, users.py lines 128-157) -/

/-- `update_user_credits` (users.py lines 128-157): unconditional overwrite of
the target user's balance with the given integer, plus one audit entry. -/
def update_user_credits (st : DBState) (user_id : Nat) (credits : Int)
    (admin : User) : DBState × Except HttpError Int :=
  match st.users.find? (fun u => u.id == user_id) with
  | none => (st, Except.error ⟨404, "User not found"⟩)
  | some user =>
    let user2 : User := { user with credits := credits }
    let audit_log : AuditLog :=
      { user_id := admin.id
        action := "CREDITS_UPDATED"
        details :=
          [("target_user_id", toString user_id),
           ("old_credits", toString user.credits),
           ("new_credits", toString credits)] }
    ({ st with
        users := putUser st.users user2
        audit_logs := st.audit_logs ++ [audit_log] },
     Except.ok credits)

/-! ### Operation sequences over the persisted state -/

/-- One externally triggered request against the gateway: a command
submission, an approval review, or the admin credits override.  The acting
user is identified by id and resolved against the state, as the
authentication dependency does. -/
inductive Op
  | submit (user_id : Nat) (command_text : String) (now : Nat)
  | review (approval_id : Nat) (admin_id : Nat) (action : String)
      (reason : Option String) (now : Nat)
  | setCredits (user_id : Nat) (admin_id : Nat) (credits : Int)
deriving DecidableEq, Repr

/-- Apply one request to the committed state (a request whose authenticated
actor does not resolve is refused before any handler runs and leaves the
state unchanged). -/
def step (reSearch : ReSearch) (st : DBState) : Op → DBState
  | Op.submit uid text now =>
    match st.users.find? (fun u => u.id == uid) with
    | none => st
    | some u => (submit_command reSearch now st u text).1
  | Op.review aid adminId action reason now =>
    match st.users.find? (fun u => u.id == adminId) with
    | none => st
    | some admin => (review_approval now st aid admin action reason).1
  | Op.setCredits uid adminId c =>
    match st.users.find? (fun u => u.id == adminId) with
    | none => st
    | some admin => (update_user_credits st uid c admin).1

/-- Run a sequence of requests. -/
def run (reSearch : ReSearch) (st : DBState) (ops : List Op) : DBState :=
  ops.foldl (step reSearch) st

/-! ### State invariants -/

/-- `credits_deducted` is 1 on executed commands and 0 otherwise. -/
def CdStatusInv (st : DBState) : Prop :=
  ∀ c ∈ st.commands, c.credits_deducted = if c.status = CommandStatus.EXECUTED then 1 else 0

/-- Primary keys already allocated are below the autoincrement counters. -/
def FreshInv (st : DBState) : Prop :=
  (∀ c ∈ st.commands, c.id < st.next_command_id) ∧
  (∀ a ∈ st.approvals, a.command_id < st.next_command_id) ∧
  (∀ a ∈ st.approvals, a.id < st.next_approval_id)

/-- Key constraints of the `approval_requests` table: `id` is the primary key
and `command_id` carries a UNIQUE constraint. -/
def ApprovalKeyInv (st : DBState) : Prop :=
  (∀ a ∈ st.approvals, ∀ b ∈ st.approvals, a.command_id = b.command_id → a = b) ∧
  (∀ a ∈ st.approvals, ∀ b ∈ st.approvals, a.id = b.id → a = b)

/-- A pending approval request always points at a command that is still in
`PENDING_APPROVAL`. -/
def PendingInv (st : DBState) : Prop :=
  ∀ a ∈ st.approvals, a.status = "pending" →
    ∀ c ∈ st.commands, c.id = a.command_id → c.status = CommandStatus.PENDING_APPROVAL

/-- The conjunction of the structural invariants above. -/
def GoodState (st : DBState) : Prop :=
  CdStatusInv st ∧ FreshInv st ∧ ApprovalKeyInv st ∧ PendingInv st

/-- No committed command carries the interim default status `ACCEPTED`. -/
def NoAcceptedInv (st : DBState) : Prop :=
  ∀ c ∈ st.commands, c.status ≠ CommandStatus.ACCEPTED

/-- Every user's balance is non-negative. -/
def CreditsNonneg (st : DBState) : Prop :=
  ∀ u ∈ st.users, 0 ≤ u.credits

/-! ### Helper lemmas -/

theorem mem_putUser {users : List User} {u v : User} (h : v ∈ putUser users u) :
    v = u ∨ (v ∈ users ∧ v.id ≠ u.id) := by
  unfold putUser at h
  rcases List.mem_map.mp h with ⟨w, hw, hv⟩
  by_cases hid : w.id = u.id
  · simp [hid] at hv; exact Or.inl hv.symm
  · simp [hid] at hv; exact Or.inr ⟨hv ▸ hw, hv ▸ hid⟩

theorem mem_putCommand {commands : List Command} {c d : Command}
    (h : d ∈ putCommand commands c) : d = c ∨ (d ∈ commands ∧ d.id ≠ c.id) := by
  unfold putCommand at h
  rcases List.mem_map.mp h with ⟨w, hw, hv⟩
  by_cases hid : w.id = c.id
  · simp [hid] at hv; exact Or.inl hv.symm
  · simp [hid] at hv; exact Or.inr ⟨hv ▸ hw, hv ▸ hid⟩

theorem mem_putApproval {approvals : List ApprovalRequest} {a b : ApprovalRequest}
    (h : b ∈ putApproval approvals a) : b = a ∨ (b ∈ approvals ∧ b.id ≠ a.id) := by
  unfold putApproval at h
  rcases List.mem_map.mp h with ⟨w, hw, hv⟩
  by_cases hid : w.id = a.id
  · simp [hid] at hv; exact Or.inl hv.symm
  · simp [hid] at hv; exact Or.inr ⟨hv ▸ hw, hv ▸ hid⟩

/-- Anatomy of a successful execution step: everything `execute_command`
writes, plus the re-verified credit precondition. -/
theorem execute_command_some {now : Nat} {c : Command} {u : User}
    {c2 : Command} {u2 : User} {l : AuditLog}
    (h : execute_command now c u = some (c2, u2, l)) :
    0 < u.credits ∧
    c2 = { c with
            credits_deducted := 1
            status := CommandStatus.EXECUTED
            result := some (format_command_result c.command_text "SUCCESS")
            executed_at := some now } ∧
    u2 = { u with credits := u.credits - 1 } ∧
    l = { user_id := u.id
          action := "COMMAND_EXECUTED"
          details :=
            [("command_id", toString c.id),
             ("command_text", c.command_text),
             ("credits_deducted", toString (1 : Nat))] } := by
  unfold execute_command at h
  split at h
  · exact absurd h (by simp)
  · next hc =>
    refine ⟨by omega, ?_⟩
    injection h with h
    injection h with h1 h
    injection h with h2 h3
    exact ⟨h1.symm, h2.symm, h3.symm⟩

/-- Branch equation: validation failure (commands.py lines 121-148). -/
theorem submit_command_invalid (reSearch : ReSearch) (now : Nat) (st : DBState)
    (u : User) (text : String) (hv : (validate_command text).1 = false) :
    submit_command reSearch now st u text =
      ({ st with
          commands := st.commands ++ [validationRejectCmd st u text now]
          audit_logs := st.audit_logs ++ [validationRejectAudit st u text]
          next_command_id := st.next_command_id + 1 },
       Except.ok (validationRejectCmd st u text now)) := by
  unfold submit_command
  rw [hv, if_pos rfl]

/-- Branch equation: insufficient credits at submission time
(commands.py lines 150-155). -/
theorem submit_command_noCredits (reSearch : ReSearch) (now : Nat) (st : DBState)
    (u : User) (text : String) (hv : (validate_command text).1 = true)
    (hc : u.credits ≤ 0) :
    submit_command reSearch now st u text =
      (st, Except.error ⟨402, "Insufficient credits. Please contact admin to add more credits."⟩) := by
  unfold submit_command
  rw [hv, if_neg (by decide), if_pos hc]

/-- Branch equation: first matching rule is AUTO_REJECT
(commands.py lines 168-191). -/
theorem submit_command_autoReject (reSearch : ReSearch) (now : Nat) (st : DBState)
    (u : User) (text : String) (rule : Rule)
    (hv : (validate_command text).1 = true) (hc : ¬u.credits ≤ 0)
    (hm : match_command_against_rules reSearch text st.rules = some rule)
    (ha : rule.action = RuleAction.AUTO_REJECT) :
    submit_command reSearch now st u text =
      ({ st with
          commands := st.commands ++ [autoRejectCmd st u text now rule]
          audit_logs := st.audit_logs ++ [autoRejectAudit st u text rule]
          next_command_id := st.next_command_id + 1 },
       Except.ok (autoRejectCmd st u text now rule)) := by
  unfold submit_command
  rw [hv, if_neg (by decide), if_neg hc, hm]
  dsimp only
  rw [ha]

/-- Branch equation: first matching rule is AUTO_ACCEPT
(commands.py lines 193-209). -/
theorem submit_command_autoAccept (reSearch : ReSearch) (now : Nat) (st : DBState)
    (u : User) (text : String) (rule : Rule)
    (hv : (validate_command text).1 = true) (hc : ¬u.credits ≤ 0)
    (hm : match_command_against_rules reSearch text st.rules = some rule)
    (ha : rule.action = RuleAction.AUTO_ACCEPT) :
    submit_command reSearch now st u text =
      execCommit st now (initialCommand st u text now (some rule)) u := by
  unfold submit_command
  rw [hv, if_neg (by decide), if_neg hc, hm]
  dsimp only
  rw [ha]

/-- Branch equation: first matching rule is REQUIRE_APPROVAL
(commands.py lines 211-242). -/
theorem submit_command_requireApproval (reSearch : ReSearch) (now : Nat) (st : DBState)
    (u : User) (text : String) (rule : Rule)
    (hv : (validate_command text).1 = true) (hc : ¬u.credits ≤ 0)
    (hm : match_command_against_rules reSearch text st.rules = some rule)
    (ha : rule.action = RuleAction.REQUIRE_APPROVAL) :
    submit_command reSearch now st u text =
      ({ st with
          commands := st.commands ++ [pendingCmd st u text now rule]
          approvals := st.approvals ++ [pendingApprovalRow st u]
          audit_logs := st.audit_logs ++ [pendingAudit st u text rule]
          next_command_id := st.next_command_id + 1
          next_approval_id := st.next_approval_id + 1 },
       Except.ok (pendingCmd st u text now rule)) := by
  unfold submit_command
  rw [hv, if_neg (by decide), if_neg hc, hm]
  dsimp only
  rw [ha]

/-- Branch equation: no rule matched (commands.py lines 193-209). -/
theorem submit_command_noMatch (reSearch : ReSearch) (now : Nat) (st : DBState)
    (u : User) (text : String)
    (hv : (validate_command text).1 = true) (hc : ¬u.credits ≤ 0)
    (hm : match_command_against_rules reSearch text st.rules = none) :
    submit_command reSearch now st u text =
      execCommit st now (initialCommand st u text now none) u := by
  unfold submit_command
  rw [hv, if_neg (by decide), if_neg hc, hm]

/-- Branch equation: execution step raised `ValueError` (rolled back). -/
theorem execCommit_none {now : Nat} {c : Command} {u : User} (st : DBState)
    (hex : execute_command now c u = none) :
    execCommit st now c u = (st, Except.error ⟨402, "Insufficient credits"⟩) := by
  unfold execCommit
  rw [hex]

/-- Branch equation: execution step succeeded and committed. -/
theorem execCommit_some {now : Nat} {c : Command} {u : User}
    {c2 : Command} {u2 : User} {l : AuditLog} (st : DBState)
    (hex : execute_command now c u = some (c2, u2, l)) :
    execCommit st now c u =
      ({ st with
          users := putUser st.users u2
          commands := st.commands ++ [c2]
          audit_logs := st.audit_logs ++ [l]
          next_command_id := st.next_command_id + 1 },
       Except.ok c2) := by
  unfold execCommit
  rw [hex]

/-- Case analysis of the state committed by `submit_command`: either nothing
(a rolled-back / refused submission), a single REJECTED command plus audit
entry, an EXECUTED command with the submitter's balance decremented (still
non-negative) plus audit entry, or a PENDING_APPROVAL command with a fresh
pending approval request plus audit entry. -/
theorem submit_cases (reSearch : ReSearch) (now : Nat) (st : DBState)
    (u : User) (text : String) :
    (submit_command reSearch now st u text).1 = st ∨
    (∃ c l, (submit_command reSearch now st u text).1 =
        { st with commands := st.commands ++ [c]
                  audit_logs := st.audit_logs ++ [l]
                  next_command_id := st.next_command_id + 1 } ∧
      c.id = st.next_command_id ∧ c.status = CommandStatus.REJECTED ∧
      c.credits_deducted = 0) ∨
    (∃ c l u2, (submit_command reSearch now st u text).1 =
        { st with users := putUser st.users u2
                  commands := st.commands ++ [c]
                  audit_logs := st.audit_logs ++ [l]
                  next_command_id := st.next_command_id + 1 } ∧
      c.id = st.next_command_id ∧ c.status = CommandStatus.EXECUTED ∧
      c.credits_deducted = 1 ∧ 0 ≤ u2.credits) ∨
    (∃ c a l, (submit_command reSearch now st u text).1 =
        { st with commands := st.commands ++ [c]
                  approvals := st.approvals ++ [a]
                  audit_logs := st.audit_logs ++ [l]
                  next_command_id := st.next_command_id + 1
                  next_approval_id := st.next_approval_id + 1 } ∧
      c.id = st.next_command_id ∧ c.status = CommandStatus.PENDING_APPROVAL ∧
      c.credits_deducted = 0 ∧ a.id = st.next_approval_id ∧
      a.command_id = st.next_command_id ∧ a.status = "pending") := by
  by_cases hv : (validate_command text).1 = false
  · rw [submit_command_invalid reSearch now st u text hv]
    exact Or.inr (Or.inl ⟨_, _, rfl, rfl, rfl, rfl⟩)
  · rw [Bool.not_eq_false] at hv
    by_cases hc : u.credits ≤ 0
    · rw [submit_command_noCredits reSearch now st u text hv hc]
      exact Or.inl rfl
    · cases hm : match_command_against_rules reSearch text st.rules with
      | none =>
        rw [submit_command_noMatch reSearch now st u text hv hc hm]
        cases hex : execute_command now (initialCommand st u text now none) u with
        | none =>
          rw [execCommit_none st hex]
          exact Or.inl rfl
        | some t =>
          obtain ⟨c2, u2, l⟩ := t
          rw [execCommit_some st hex]
          obtain ⟨hcred, hc2, hu2, _⟩ := execute_command_some hex
          refine Or.inr (Or.inr (Or.inl ⟨c2, l, u2, rfl, ?_, ?_, ?_, ?_⟩))
          · rw [hc2]; rfl
          · rw [hc2]
          · rw [hc2]
          · rw [hu2]; dsimp only; omega
      | some rule =>
        cases ha : rule.action with
        | AUTO_REJECT =>
          rw [submit_command_autoReject reSearch now st u text rule hv hc hm ha]
          exact Or.inr (Or.inl ⟨_, _, rfl, rfl, rfl, rfl⟩)
        | AUTO_ACCEPT =>
          rw [submit_command_autoAccept reSearch now st u text rule hv hc hm ha]
          cases hex : execute_command now (initialCommand st u text now (some rule)) u with
          | none =>
            rw [execCommit_none st hex]
            exact Or.inl rfl
          | some t =>
            obtain ⟨c2, u2, l⟩ := t
            rw [execCommit_some st hex]
            obtain ⟨hcred, hc2, hu2, _⟩ := execute_command_some hex
            refine Or.inr (Or.inr (Or.inl ⟨c2, l, u2, rfl, ?_, ?_, ?_, ?_⟩))
            · rw [hc2]; rfl
            · rw [hc2]
            · rw [hc2]
            · rw [hu2]; dsimp only; omega
        | REQUIRE_APPROVAL =>
          rw [submit_command_requireApproval reSearch now st u text rule hv hc hm ha]
          exact Or.inr (Or.inr (Or.inr ⟨_, _, _, rfl, rfl, rfl, rfl, rfl, rfl, rfl⟩))

/-- Branch equation: no pending approval request with this id
(approvals.py lines 57-64). -/
theorem review_noPending {st : DBState} {approval_id : Nat}
    (now : Nat) (admin : User) (action : String) (reason : Option String)
    (ha : st.approvals.find? (fun a => a.id == approval_id && a.status == "pending") = none) :
    review_approval now st approval_id admin action reason =
      (st, Except.error ⟨404, "Approval request not found or already reviewed"⟩) := by
  unfold review_approval
  rw [ha]

/-- Branch equation: the linked command row is missing (approvals.py lines 66-69). -/
theorem review_noCommand {st : DBState} {approval_id : Nat} {approval : ApprovalRequest}
    (now : Nat) (admin : User) (action : String) (reason : Option String)
    (ha : st.approvals.find? (fun a => a.id == approval_id && a.status == "pending") = some approval)
    (hc : st.commands.find? (fun c => c.id == approval.command_id) = none) :
    review_approval now st approval_id admin action reason =
      (st, Except.error ⟨404, "Command not found"⟩) := by
  unfold review_approval
  rw [ha]; dsimp only; rw [hc]

/-- Branch equation: the submitting user row is missing (approvals.py lines 71-74). -/
theorem review_noUser {st : DBState} {approval_id : Nat} {approval : ApprovalRequest}
    {command : Command}
    (now : Nat) (admin : User) (action : String) (reason : Option String)
    (ha : st.approvals.find? (fun a => a.id == approval_id && a.status == "pending") = some approval)
    (hc : st.commands.find? (fun c => c.id == approval.command_id) = some command)
    (hu : st.users.find? (fun u => u.id == command.user_id) = none) :
    review_approval now st approval_id admin action reason =
      (st, Except.error ⟨404, "User not found"⟩) := by
  unfold review_approval
  rw [ha]; dsimp only; rw [hc]; dsimp only; rw [hu]

/-- Branch equation: "approve" whose execution step fails on credits; the
staged approval mutation is rolled back (approvals.py lines 106-108). -/
theorem review_approve_insufficient {st : DBState} {approval_id : Nat}
    {approval : ApprovalRequest} {command : Command} {user : User}
    (now : Nat) (admin : User) (reason : Option String)
    (ha : st.approvals.find? (fun a => a.id == approval_id && a.status == "pending") = some approval)
    (hc : st.commands.find? (fun c => c.id == approval.command_id) = some command)
    (hu : st.users.find? (fun u => u.id == command.user_id) = some user)
    (hex : execute_command now command user = none) :
    review_approval now st approval_id admin "approve" reason =
      (st, Except.error ⟨402, "Insufficient credits"⟩) := by
  unfold review_approval
  rw [ha]; dsimp only; rw [hc]; dsimp only; rw [hu]; dsimp only
  rw [if_pos rfl, hex]

/-- Branch equation: successful "approve" (approvals.py lines 76-104). -/
theorem review_approve_ok {st : DBState} {approval_id : Nat}
    {approval : ApprovalRequest} {command : Command} {user : User}
    {c2 : Command} {u2 : User} {l : AuditLog}
    (now : Nat) (admin : User) (reason : Option String)
    (ha : st.approvals.find? (fun a => a.id == approval_id && a.status == "pending") = some approval)
    (hc : st.commands.find? (fun c => c.id == approval.command_id) = some command)
    (hu : st.users.find? (fun u => u.id == command.user_id) = some user)
    (hex : execute_command now command user = some (c2, u2, l)) :
    review_approval now st approval_id admin "approve" reason =
      ({ st with
          users := putUser st.users u2
          commands := putCommand st.commands c2
          approvals := putApproval st.approvals
            { approval with
                status := "approved"
                approved_by := some admin.id
                reviewed_at := some now }
          audit_logs := st.audit_logs ++
            [l,
             { user_id := admin.id
               action := "COMMAND_APPROVED"
               details :=
                 [("approval_id", toString approval.id),
                  ("command_id", toString command.id),
                  ("command_text", command.command_text),
                  ("requester", user.username)] }] },
       Except.ok "Command approved and executed") := by
  unfold review_approval
  rw [ha]; dsimp only; rw [hc]; dsimp only; rw [hu]; dsimp only
  rw [if_pos rfl, hex]

/-- Branch equation: "reject" (approvals.py lines 113-141). -/
theorem review_reject_ok {st : DBState} {approval_id : Nat}
    {approval : ApprovalRequest} {command : Command} {user : User}
    (now : Nat) (admin : User) (reason : Option String)
    (ha : st.approvals.find? (fun a => a.id == approval_id && a.status == "pending") = some approval)
    (hc : st.commands.find? (fun c => c.id == approval.command_id) = some command)
    (hu : st.users.find? (fun u => u.id == command.user_id) = some user) :
    review_approval now st approval_id admin "reject" reason =
      ({ st with
          commands := putCommand st.commands
            { command with
                status := CommandStatus.REJECTED
                result := some ("Rejected by admin: " ++ pyOr reason "No reason provided") }
          approvals := putApproval st.approvals
            { approval with
                status := "rejected"
                approved_by := some admin.id
                reviewed_at := some now }
          audit_logs := st.audit_logs ++
            [{ user_id := admin.id
               action := "COMMAND_REJECTED_BY_ADMIN"
               details :=
                 [("approval_id", toString approval.id),
                  ("command_id", toString command.id),
                  ("command_text", command.command_text),
                  ("requester", user.username),
                  ("reason", reason.getD "null")] }] },
       Except.ok "Command rejected") := by
  unfold review_approval
  rw [ha]; dsimp only; rw [hc]; dsimp only; rw [hu]; dsimp only
  rw [if_neg (by decide), if_pos rfl]

/-- Branch equation: an unrecognised action string (approvals.py lines 143-144). -/
theorem review_badAction {st : DBState} {approval_id : Nat}
    {approval : ApprovalRequest} {command : Command} {user : User}
    (now : Nat) (admin : User) (action : String) (reason : Option String)
    (ha : st.approvals.find? (fun a => a.id == approval_id && a.status == "pending") = some approval)
    (hc : st.commands.find? (fun c => c.id == approval.command_id) = some command)
    (hu : st.users.find? (fun u => u.id == command.user_id) = some user)
    (h1 : ¬action = "approve") (h2 : ¬action = "reject") :
    review_approval now st approval_id admin action reason =
      (st, Except.error ⟨400, "Invalid action. Use \x27approve\x27 or \x27reject\x27"⟩) := by
  unfold review_approval
  rw [ha]; dsimp only; rw [hc]; dsimp only; rw [hu]; dsimp only
  rw [if_neg h1, if_neg h2]

/-- Case analysis of the state committed by `review_approval`: either nothing
(not found, rolled back, or bad action), an approved review that executed the
linked command, or an admin rejection of the linked command. -/
theorem review_cases (now : Nat) (st : DBState) (aid : Nat) (admin : User)
    (action : String) (reason : Option String) :
    (review_approval now st aid admin action reason).1 = st ∨
    (∃ approval command c2 u2 a2 l1 l2,
      approval ∈ st.approvals ∧ approval.status = "pending" ∧
      command ∈ st.commands ∧ command.id = approval.command_id ∧
      (review_approval now st aid admin action reason).1 =
        { st with
            users := putUser st.users u2
            commands := putCommand st.commands c2
            approvals := putApproval st.approvals a2
            audit_logs := st.audit_logs ++ [l1, l2] } ∧
      c2.id = command.id ∧ c2.status = CommandStatus.EXECUTED ∧
      c2.credits_deducted = 1 ∧ a2.id = approval.id ∧
      a2.command_id = approval.command_id ∧ a2.status = "approved" ∧
      0 ≤ u2.credits) ∨
    (∃ approval command c2 a2 l,
      approval ∈ st.approvals ∧ approval.status = "pending" ∧
      command ∈ st.commands ∧ command.id = approval.command_id ∧
      (review_approval now st aid admin action reason).1 =
        { st with
            commands := putCommand st.commands c2
            approvals := putApproval st.approvals a2
            audit_logs := st.audit_logs ++ [l] } ∧
      c2.id = command.id ∧ c2.status = CommandStatus.REJECTED ∧
      c2.credits_deducted = command.credits_deducted ∧ a2.id = approval.id ∧
      a2.command_id = approval.command_id ∧ a2.status = "rejected") := by
  cases ha : st.approvals.find? (fun a => a.id == aid && a.status == "pending") with
  | none =>
    rw [review_noPending now admin action reason ha]
    exact Or.inl rfl
  | some approval =>
    have hmemA : approval ∈ st.approvals := List.mem_of_find?_eq_some ha
    have hpredA := List.find?_some ha
    simp only [Bool.and_eq_true, beq_iff_eq] at hpredA
    cases hc : st.commands.find? (fun c => c.id == approval.command_id) with
    | none =>
      rw [review_noCommand now admin action reason ha hc]
      exact Or.inl rfl
    | some command =>
      have hmemC : command ∈ st.commands := List.mem_of_find?_eq_some hc
      have hidC : command.id = approval.command_id := by
        have := List.find?_some hc
        simpa using this
      cases hu : st.users.find? (fun u => u.id == command.user_id) with
      | none =>
        rw [review_noUser now admin action reason ha hc hu]
        exact Or.inl rfl
      | some user =>
        by_cases hact : action = "approve"
        · subst hact
          cases hex : execute_command now command user with
          | none =>
            rw [review_approve_insufficient now admin reason ha hc hu hex]
            exact Or.inl rfl
          | some t =>
            obtain ⟨c2, u2, l⟩ := t
            rw [review_approve_ok now admin reason ha hc hu hex]
            obtain ⟨hcred, hc2, hu2, _⟩ := execute_command_some hex
            refine Or.inr (Or.inl ⟨approval, command, c2, u2, _, l, _,
              hmemA, hpredA.2, hmemC, hidC, rfl, ?_, ?_, ?_, rfl, rfl, rfl, ?_⟩)
            · rw [hc2]
            · rw [hc2]
            · rw [hc2]
            · rw [hu2]; dsimp only; omega
        · by_cases hact2 : action = "reject"
          · subst hact2
            rw [review_reject_ok now admin reason ha hc hu]
            exact Or.inr (Or.inr ⟨approval, command, _, _, _,
              hmemA, hpredA.2, hmemC, hidC, rfl, rfl, rfl, rfl, rfl, rfl, rfl⟩)
          · rw [review_badAction now admin action reason ha hc hu hact hact2]
            exact Or.inl rfl

/-- Case analysis of the state committed by `update_user_credits`: either
nothing (target user missing) or the target user's balance overwritten with
the given integer, plus one audit entry. -/
theorem update_credits_cases (st : DBState) (uid : Nat) (c : Int) (admin : User) :
    (update_user_credits st uid c admin).1 = st ∨
    (∃ user l, user ∈ st.users ∧
      (update_user_credits st uid c admin).1 =
        { st with
            users := putUser st.users { user with credits := c }
            audit_logs := st.audit_logs ++ [l] }) := by
  unfold update_user_credits
  cases hu : st.users.find? (fun u => u.id == uid) with
  | none => exact Or.inl rfl
  | some user =>
    exact Or.inr ⟨user, _, List.mem_of_find?_eq_some hu, rfl⟩

/-- `submit_command` preserves the structural invariants. -/
theorem submit_preserves_good (reSearch : ReSearch) (now : Nat) (st : DBState)
    (u : User) (text : String) (h : GoodState st) :
    GoodState (submit_command reSearch now st u text).1 := by
  obtain ⟨h1, ⟨h2a, h2b, h2c⟩, ⟨h3a, h3b⟩, h4⟩ := h
  rcases submit_cases reSearch now st u text with heq
    | ⟨c, l, heq, hid, hstat, hcd⟩
    | ⟨c, l, u2, heq, hid, hstat, hcd, _⟩
    | ⟨c, a, l, heq, hid, hstat, hcd, haid, hacmd, hastat⟩
  · rw [heq]
    exact ⟨h1, ⟨h2a, h2b, h2c⟩, ⟨h3a, h3b⟩, h4⟩
  · -- a REJECTED command is appended
    rw [heq]
    refine ⟨?_, ⟨?_, ?_, h2c⟩, ⟨h3a, h3b⟩, ?_⟩
    · intro d hd
      rcases List.mem_append.mp hd with hd | hd
      · exact h1 d hd
      · rw [List.mem_singleton.mp hd, hcd, hstat]
        rfl
    · intro d hd
      rcases List.mem_append.mp hd with hd | hd
      · exact Nat.lt_succ_of_lt (h2a d hd)
      · rw [List.mem_singleton.mp hd, hid]
        exact Nat.lt_succ_self _
    · intro b hb
      exact Nat.lt_succ_of_lt (h2b b hb)
    · intro b hb hbpend d hd hdid
      rcases List.mem_append.mp hd with hd | hd
      · exact h4 b hb hbpend d hd hdid
      · exfalso
        rw [List.mem_singleton.mp hd, hid] at hdid
        exact absurd hdid.symm (Nat.ne_of_lt (h2b b hb))
  · -- an EXECUTED command is appended, the submitting user is updated
    rw [heq]
    refine ⟨?_, ⟨?_, ?_, h2c⟩, ⟨h3a, h3b⟩, ?_⟩
    · intro d hd
      rcases List.mem_append.mp hd with hd | hd
      · exact h1 d hd
      · rw [List.mem_singleton.mp hd, hcd, hstat]
        rfl
    · intro d hd
      rcases List.mem_append.mp hd with hd | hd
      · exact Nat.lt_succ_of_lt (h2a d hd)
      · rw [List.mem_singleton.mp hd, hid]
        exact Nat.lt_succ_self _
    · intro b hb
      exact Nat.lt_succ_of_lt (h2b b hb)
    · intro b hb hbpend d hd hdid
      rcases List.mem_append.mp hd with hd | hd
      · exact h4 b hb hbpend d hd hdid
      · exfalso
        rw [List.mem_singleton.mp hd, hid] at hdid
        exact absurd hdid.symm (Nat.ne_of_lt (h2b b hb))
  · -- a PENDING_APPROVAL command and a pending approval request are appended
    rw [heq]
    refine ⟨?_, ⟨?_, ?_, ?_⟩, ⟨?_, ?_⟩, ?_⟩
    · intro d hd
      rcases List.mem_append.mp hd with hd | hd
      · exact h1 d hd
      · rw [List.mem_singleton.mp hd, hcd, hstat]
        rfl
    · intro d hd
      rcases List.mem_append.mp hd with hd | hd
      · exact Nat.lt_succ_of_lt (h2a d hd)
      · rw [List.mem_singleton.mp hd, hid]
        exact Nat.lt_succ_self _
    · intro b hb
      rcases List.mem_append.mp hb with hb | hb
      · exact Nat.lt_succ_of_lt (h2b b hb)
      · rw [List.mem_singleton.mp hb, hacmd]
        exact Nat.lt_succ_self _
    · intro b hb
      rcases List.mem_append.mp hb with hb | hb
      · exact Nat.lt_succ_of_lt (h2c b hb)
      · rw [List.mem_singleton.mp hb, haid]
        exact Nat.lt_succ_self _
    · intro x hx y hy hxy
      rcases List.mem_append.mp hx with hx | hx <;>
        rcases List.mem_append.mp hy with hy | hy
      · exact h3a x hx y hy hxy
      · exfalso
        rw [List.mem_singleton.mp hy, hacmd] at hxy
        exact absurd hxy (Nat.ne_of_lt (h2b x hx))
      · exfalso
        rw [List.mem_singleton.mp hx, hacmd] at hxy
        exact absurd hxy.symm (Nat.ne_of_lt (h2b y hy))
      · rw [List.mem_singleton.mp hx, List.mem_singleton.mp hy]
    · intro x hx y hy hxy
      rcases List.mem_append.mp hx with hx | hx <;>
        rcases List.mem_append.mp hy with hy | hy
      · exact h3b x hx y hy hxy
      · exfalso
        rw [List.mem_singleton.mp hy, haid] at hxy
        exact absurd hxy (Nat.ne_of_lt (h2c x hx))
      · exfalso
        rw [List.mem_singleton.mp hx, haid] at hxy
        exact absurd hxy.symm (Nat.ne_of_lt (h2c y hy))
      · rw [List.mem_singleton.mp hx, List.mem_singleton.mp hy]
    · intro b hb hbpend d hd hdid
      rcases List.mem_append.mp hb with hb | hb
      · rcases List.mem_append.mp hd with hd | hd
        · exact h4 b hb hbpend d hd hdid
        · exfalso
          rw [List.mem_singleton.mp hd, hid] at hdid
          exact absurd hdid.symm (Nat.ne_of_lt (h2b b hb))
      · rcases List.mem_append.mp hd with hd | hd
        · exfalso
          rw [List.mem_singleton.mp hb, hacmd] at hdid
          exact absurd hdid (Nat.ne_of_lt (h2a d hd))
        · rw [List.mem_singleton.mp hd, hstat]

/-- `review_approval` preserves the structural invariants. -/
theorem review_preserves_good (now : Nat) (st : DBState) (aid : Nat)
    (admin : User) (action : String) (reason : Option String) (h : GoodState st) :
    GoodState (review_approval now st aid admin action reason).1 := by
  obtain ⟨h1, ⟨h2a, h2b, h2c⟩, ⟨h3a, h3b⟩, h4⟩ := h
  rcases review_cases now st aid admin action reason with heq
    | ⟨approval, command, c2, u2, a2, l1, l2, hA, hApend, hC, hCid, heq,
       hc2id, hc2stat, hc2cd, ha2id, ha2cmd, ha2stat, _⟩
    | ⟨approval, command, c2, a2, l, hA, hApend, hC, hCid, heq,
       hc2id, hc2stat, hc2cd, ha2id, ha2cmd, ha2stat⟩
  · rw [heq]
    exact ⟨h1, ⟨h2a, h2b, h2c⟩, ⟨h3a, h3b⟩, h4⟩
  · -- approve: linked command executed, approval marked approved
    rw [heq]
    refine ⟨?_, ⟨?_, ?_, ?_⟩, ⟨?_, ?_⟩, ?_⟩
    · intro d hd
      rcases mem_putCommand hd with rfl | ⟨hd, _⟩
      · rw [hc2cd, hc2stat]
        rfl
      · exact h1 d hd
    · intro d hd
      rcases mem_putCommand hd with rfl | ⟨hd, _⟩
      · rw [hc2id]
        exact h2a command hC
      · exact h2a d hd
    · intro b hb
      rcases mem_putApproval hb with rfl | ⟨hb, _⟩
      · rw [ha2cmd]
        exact h2b approval hA
      · exact h2b b hb
    · intro b hb
      rcases mem_putApproval hb with rfl | ⟨hb, _⟩
      · rw [ha2id]
        exact h2c approval hA
      · exact h2c b hb
    · intro x hx y hy hxy
      rcases mem_putApproval hx with hxa | ⟨hxm, hxne⟩ <;>
        rcases mem_putApproval hy with hya | ⟨hym, hyne⟩
      · rw [hxa, hya]
      · exfalso
        have hy2 : y = approval :=
          h3a y hym approval hA (by rw [← hxy, hxa, ha2cmd])
        exact hyne (by rw [hy2, ha2id])
      · exfalso
        have hx2 : x = approval :=
          h3a x hxm approval hA (by rw [hxy, hya, ha2cmd])
        exact hxne (by rw [hx2, ha2id])
      · exact h3a x hxm y hym hxy
    · intro x hx y hy hxy
      rcases mem_putApproval hx with hxa | ⟨hxm, hxne⟩ <;>
        rcases mem_putApproval hy with hya | ⟨hym, hyne⟩
      · rw [hxa, hya]
      · exact absurd (by rw [← hxy, hxa] : y.id = a2.id) hyne
      · exact absurd (by rw [hxy, hya] : x.id = a2.id) hxne
      · exact h3b x hxm y hym hxy
    · intro b hb hbpend d hd hdid
      rcases mem_putApproval hb with hba | ⟨hbm, hbne⟩
      · rw [hba, ha2stat] at hbpend
        simp at hbpend
      · rcases mem_putCommand hd with hdc | ⟨hdm, _⟩
        · exfalso
          have hbap : b = approval :=
            h3a b hbm approval hA (by rw [← hdid, hdc, hc2id, hCid])
          exact hbne (by rw [hbap, ha2id])
        · exact h4 b hbm hbpend d hdm hdid
  · -- reject: linked command set to REJECTED, approval marked rejected
    have hps : command.status = CommandStatus.PENDING_APPROVAL :=
      h4 approval hA hApend command hC hCid
    have hcd0 : command.credits_deducted = 0 := by
      have := h1 command hC
      rw [hps] at this
      simpa using this
    rw [heq]
    refine ⟨?_, ⟨?_, ?_, ?_⟩, ⟨?_, ?_⟩, ?_⟩
    · intro d hd
      rcases mem_putCommand hd with rfl | ⟨hd, _⟩
      · rw [hc2cd, hc2stat, hcd0]
        rfl
      · exact h1 d hd
    · intro d hd
      rcases mem_putCommand hd with rfl | ⟨hd, _⟩
      · rw [hc2id]
        exact h2a command hC
      · exact h2a d hd
    · intro b hb
      rcases mem_putApproval hb with rfl | ⟨hb, _⟩
      · rw [ha2cmd]
        exact h2b approval hA
      · exact h2b b hb
    · intro b hb
      rcases mem_putApproval hb with rfl | ⟨hb, _⟩
      · rw [ha2id]
        exact h2c approval hA
      · exact h2c b hb
    · intro x hx y hy hxy
      rcases mem_putApproval hx with hxa | ⟨hxm, hxne⟩ <;>
        rcases mem_putApproval hy with hya | ⟨hym, hyne⟩
      · rw [hxa, hya]
      · exfalso
        have hy2 : y = approval :=
          h3a y hym approval hA (by rw [← hxy, hxa, ha2cmd])
        exact hyne (by rw [hy2, ha2id])
      · exfalso
        have hx2 : x = approval :=
          h3a x hxm approval hA (by rw [hxy, hya, ha2cmd])
        exact hxne (by rw [hx2, ha2id])
      · exact h3a x hxm y hym hxy
    · intro x hx y hy hxy
      rcases mem_putApproval hx with hxa | ⟨hxm, hxne⟩ <;>
        rcases mem_putApproval hy with hya | ⟨hym, hyne⟩
      · rw [hxa, hya]
      · exact absurd (by rw [← hxy, hxa] : y.id = a2.id) hyne
      · exact absurd (by rw [hxy, hya] : x.id = a2.id) hxne
      · exact h3b x hxm y hym hxy
    · intro b hb hbpend d hd hdid
      rcases mem_putApproval hb with hba | ⟨hbm, hbne⟩
      · rw [hba, ha2stat] at hbpend
        simp at hbpend
      · rcases mem_putCommand hd with hdc | ⟨hdm, _⟩
        · exfalso
          have hbap : b = approval :=
            h3a b hbm approval hA (by rw [← hdid, hdc, hc2id, hCid])
          exact hbne (by rw [hbap, ha2id])
        · exact h4 b hbm hbpend d hdm hdid

/-- `update_user_credits` preserves the structural invariants (it touches
only the `users` and `audit_logs` tables). -/
theorem update_credits_preserves_good (st : DBState) (uid : Nat) (c : Int)
    (admin : User) (h : GoodState st) :
    GoodState (update_user_credits st uid c admin).1 := by
  obtain ⟨h1, ⟨h2a, h2b, h2c⟩, ⟨h3a, h3b⟩, h4⟩ := h
  rcases update_credits_cases st uid c admin with heq | ⟨user, l, _, heq⟩ <;> rw [heq]
  · exact ⟨h1, ⟨h2a, h2b, h2c⟩, ⟨h3a, h3b⟩, h4⟩
  · exact ⟨h1, ⟨h2a, h2b, h2c⟩, ⟨h3a, h3b⟩, h4⟩

/-- One request preserves the structural invariants. -/
theorem step_preserves_good (reSearch : ReSearch) (st : DBState) (op : Op)
    (h : GoodState st) : GoodState (step reSearch st op) := by
  cases op with
  | submit uid text now =>
    show GoodState (match st.users.find? (fun u => u.id == uid) with
      | none => st
      | some u => (submit_command reSearch now st u text).1)
    cases st.users.find? (fun u => u.id == uid) with
    | none => exact h
    | some u => exact submit_preserves_good reSearch now st u text h
  | review aid adminId action reason now =>
    show GoodState (match st.users.find? (fun u => u.id == adminId) with
      | none => st
      | some admin => (review_approval now st aid admin action reason).1)
    cases st.users.find? (fun u => u.id == adminId) with
    | none => exact h
    | some admin => exact review_preserves_good now st aid admin action reason h
  | setCredits uid adminId c =>
    show GoodState (match st.users.find? (fun u => u.id == adminId) with
      | none => st
      | some admin => (update_user_credits st uid c admin).1)
    cases st.users.find? (fun u => u.id == adminId) with
    | none => exact h
    | some admin => exact update_credits_preserves_good st uid c admin h

/-- Any sequence of requests preserves the structural invariants. -/
theorem run_preserves_good (reSearch : ReSearch) (ops : List Op) (st : DBState)
    (h : GoodState st) : GoodState (run reSearch st ops) := by
  induction ops generalizing st with
  | nil => exact h
  | cons op rest ih => exact ih (step reSearch st op) (step_preserves_good reSearch st op h)

/-- `submit_command` never commits a command in the interim status ACCEPTED. -/
theorem submit_preserves_noAccepted (reSearch : ReSearch) (now : Nat) (st : DBState)
    (u : User) (text : String) (h : NoAcceptedInv st) :
    NoAcceptedInv (submit_command reSearch now st u text).1 := by
  rcases submit_cases reSearch now st u text with heq
    | ⟨c, l, heq, hid, hstat, hcd⟩
    | ⟨c, l, u2, heq, hid, hstat, hcd, _⟩
    | ⟨c, a, l, heq, hid, hstat, hcd, _, _, _⟩ <;> rw [heq]
  · exact h
  all_goals
    intro d hd
    rcases List.mem_append.mp hd with hd | hd
  · exact h d hd
  · rw [List.mem_singleton.mp hd, hstat]; decide
  · exact h d hd
  · rw [List.mem_singleton.mp hd, hstat]; decide
  · exact h d hd
  · rw [List.mem_singleton.mp hd, hstat]; decide

/-- `review_approval` never commits a command in the interim status ACCEPTED. -/
theorem review_preserves_noAccepted (now : Nat) (st : DBState) (aid : Nat)
    (admin : User) (action : String) (reason : Option String) (h : NoAcceptedInv st) :
    NoAcceptedInv (review_approval now st aid admin action reason).1 := by
  rcases review_cases now st aid admin action reason with heq
    | ⟨approval, command, c2, u2, a2, l1, l2, hA, hApend, hC, hCid, heq,
       hc2id, hc2stat, hc2cd, ha2id, ha2cmd, ha2stat, _⟩
    | ⟨approval, command, c2, a2, l, hA, hApend, hC, hCid, heq,
       hc2id, hc2stat, hc2cd, ha2id, ha2cmd, ha2stat⟩ <;> rw [heq]
  · exact h
  · intro d hd
    rcases mem_putCommand hd with hdc | ⟨hdm, _⟩
    · rw [hdc, hc2stat]; decide
    · exact h d hdm
  · intro d hd
    rcases mem_putCommand hd with hdc | ⟨hdm, _⟩
    · rw [hdc, hc2stat]; decide
    · exact h d hdm

/-- `update_user_credits` does not touch the commands table. -/
theorem update_credits_preserves_noAccepted (st : DBState) (uid : Nat) (c : Int)
    (admin : User) (h : NoAcceptedInv st) :
    NoAcceptedInv (update_user_credits st uid c admin).1 := by
  rcases update_credits_cases st uid c admin with heq | ⟨user, l, _, heq⟩ <;> rw [heq]
  · exact h
  · exact h

/-- One request never commits a command in the interim status ACCEPTED. -/
theorem step_preserves_noAccepted (reSearch : ReSearch) (st : DBState) (op : Op)
    (h : NoAcceptedInv st) : NoAcceptedInv (step reSearch st op) := by
  cases op with
  | submit uid text now =>
    show NoAcceptedInv (match st.users.find? (fun u => u.id == uid) with
      | none => st
      | some u => (submit_command reSearch now st u text).1)
    cases st.users.find? (fun u => u.id == uid) with
    | none => exact h
    | some u => exact submit_preserves_noAccepted reSearch now st u text h
  | review aid adminId action reason now =>
    show NoAcceptedInv (match st.users.find? (fun u => u.id == adminId) with
      | none => st
      | some admin => (review_approval now st aid admin action reason).1)
    cases st.users.find? (fun u => u.id == adminId) with
    | none => exact h
    | some admin => exact review_preserves_noAccepted now st aid admin action reason h
  | setCredits uid adminId c =>
    show NoAcceptedInv (match st.users.find? (fun u => u.id == adminId) with
      | none => st
      | some admin => (update_user_credits st uid c admin).1)
    cases st.users.find? (fun u => u.id == adminId) with
    | none => exact h
    | some admin => exact update_credits_preserves_noAccepted st uid c admin h

/-- Any sequence of requests preserves the no-ACCEPTED invariant. -/
theorem run_preserves_noAccepted (reSearch : ReSearch) (ops : List Op) (st : DBState)
    (h : NoAcceptedInv st) : NoAcceptedInv (run reSearch st ops) := by
  induction ops generalizing st with
  | nil => exact h
  | cons op rest ih =>
    exact ih (step reSearch st op) (step_preserves_noAccepted reSearch st op h)

/-- `submit_command` keeps every balance non-negative: the only balance it
writes is the executing user's, decremented from a positive value. -/
theorem submit_preserves_nonneg (reSearch : ReSearch) (now : Nat) (st : DBState)
    (u : User) (text : String) (h : CreditsNonneg st) :
    CreditsNonneg (submit_command reSearch now st u text).1 := by
  rcases submit_cases reSearch now st u text with heq
    | ⟨c, l, heq, _, _, _⟩
    | ⟨c, l, u2, heq, _, _, _, hnn⟩
    | ⟨c, a, l, heq, _, _, _, _, _, _⟩ <;> rw [heq]
  · exact h
  · exact h
  · intro v hv
    rcases mem_putUser hv with hvu | ⟨hvm, _⟩
    · rw [hvu]; exact hnn
    · exact h v hvm
  · exact h

/-- `review_approval` keeps every balance non-negative. -/
theorem review_preserves_nonneg (now : Nat) (st : DBState) (aid : Nat)
    (admin : User) (action : String) (reason : Option String) (h : CreditsNonneg st) :
    CreditsNonneg (review_approval now st aid admin action reason).1 := by
  rcases review_cases now st aid admin action reason with heq
    | ⟨approval, command, c2, u2, a2, l1, l2, hA, hApend, hC, hCid, heq,
       _, _, _, _, _, _, hnn⟩
    | ⟨approval, command, c2, a2, l, hA, hApend, hC, hCid, heq, _, _, _, _, _, _⟩ <;>
    rw [heq]
  · exact h
  · intro v hv
    rcases mem_putUser hv with hvu | ⟨hvm, _⟩
    · rw [hvu]; exact hnn
    · exact h v hvm
  · exact h

/-- The condition under which a request cannot write a negative balance: the
admin credits override must be called with a non-negative value.  (The
override itself is an unconditional overwrite.) -/
def OpKeepsNonneg : Op → Prop
  | Op.setCredits _ _ c => 0 ≤ c
  | _ => True

/-- `update_user_credits` keeps balances non-negative exactly when the new
value is non-negative. -/
theorem update_credits_preserves_nonneg (st : DBState) (uid : Nat) (c : Int)
    (admin : User) (h : CreditsNonneg st) (hc : 0 ≤ c) :
    CreditsNonneg (update_user_credits st uid c admin).1 := by
  rcases update_credits_cases st uid c admin with heq | ⟨user, l, _, heq⟩ <;> rw [heq]
  · exact h
  · intro v hv
    rcases mem_putUser hv with hvu | ⟨hvm, _⟩
    · rw [hvu]; exact hc
    · exact h v hvm

/-- One request keeps balances non-negative, provided a credits override in
it carries a non-negative value. -/
theorem step_preserves_nonneg (reSearch : ReSearch) (st : DBState) (op : Op)
    (h : CreditsNonneg st) (hop : OpKeepsNonneg op) :
    CreditsNonneg (step reSearch st op) := by
  cases op with
  | submit uid text now =>
    show CreditsNonneg (match st.users.find? (fun u => u.id == uid) with
      | none => st
      | some u => (submit_command reSearch now st u text).1)
    cases st.users.find? (fun u => u.id == uid) with
    | none => exact h
    | some u => exact submit_preserves_nonneg reSearch now st u text h
  | review aid adminId action reason now =>
    show CreditsNonneg (match st.users.find? (fun u => u.id == adminId) with
      | none => st
      | some admin => (review_approval now st aid admin action reason).1)
    cases st.users.find? (fun u => u.id == adminId) with
    | none => exact h
    | some admin => exact review_preserves_nonneg now st aid admin action reason h
  | setCredits uid adminId c =>
    show CreditsNonneg (match st.users.find? (fun u => u.id == adminId) with
      | none => st
      | some admin => (update_user_credits st uid c admin).1)
    cases st.users.find? (fun u => u.id == adminId) with
    | none => exact h
    | some admin => exact update_credits_preserves_nonneg st uid c admin h hop

/-- Any sequence of requests whose credits overrides are non-negative keeps
every balance non-negative. -/
theorem run_preserves_nonneg (reSearch : ReSearch) (ops : List Op) (st : DBState)
    (h : CreditsNonneg st) (hops : ∀ op ∈ ops, OpKeepsNonneg op) :
    CreditsNonneg (run reSearch st ops) := by
  induction ops generalizing st with
  | nil => exact h
  | cons op rest ih =>
    exact ih (step reSearch st op)
      (step_preserves_nonneg reSearch st op h (hops op (List.mem_cons_self op rest)))
      (fun o ho => hops o (List.mem_cons_of_mem op ho))

/-! ### Rule-matcher facts -/

/-- The matcher loop is first-match search: it returns exactly
`List.find?` with the predicate "the pattern search succeeded". -/
theorem matchLoop_eq_find (reSearch : ReSearch) (text : String) (l : List Rule) :
    matchLoop reSearch text l =
      l.find? (fun r => reSearch r.pattern text == some true) := by
  induction l with
  | nil => rfl
  | cons r rest ih =>
    cases h : reSearch r.pattern text with
    | none => simp [matchLoop, List.find?, h, ih]
    | some b => cases b <;> simp [matchLoop, List.find?, h, ih]

/-- Rules whose pattern raises `re.error` are skipped: removing them from
the scan does not change the result. -/
theorem matchLoop_filter_isSome (reSearch : ReSearch) (text : String) (l : List Rule) :
    matchLoop reSearch text l =
      matchLoop reSearch text (l.filter (fun r => (reSearch r.pattern text).isSome)) := by
  induction l with
  | nil => rfl
  | cons r rest ih =>
    cases h : reSearch r.pattern text with
    | none => simp [matchLoop, List.filter, h, ih]
    | some b => cases b <;> simp [matchLoop, List.filter, h, ih]

/-! ### Validator characterization -/

/-- The exact boolean characterization of the code's rejection condition:
after the Python strip, the text is empty, contains a character of the class
`[\x00-\x08\x0B\x0C\x0E-\x1F]`, starts or ends with one of `;`, `&`, `|`,
or contains `;;`, `||` or `&&` (two adjacent copies of the SAME operator). -/
def codeRejects (s : String) : Bool :=
  let cs := pyStrip s.data
  cs.isEmpty || cs.any isBadControl || startsWithOp cs || endsWithOp cs ||
    hasDoubled ';' cs || hasDoubled '|' cs || hasDoubled '&' cs

/-- Defined from the claim's words (for comparison with `validate_command`):
two or more consecutive characters drawn from the operator set, mixed runs
such as `;&` included. -/
def claimOpRun : List Char → Bool
  | [] => false
  | [_] => false
  | a :: b :: rest => (isOpChar a && isOpChar b) || claimOpRun (b :: rest)

/-- Defined from the claim's words (for comparison with `validate_command`):
reject iff the stripped text is empty, contains a control character, starts
or ends with an operator, or contains any run of two or more consecutive
operator characters (mixed runs included). -/
def claimRejects (s : String) : Bool :=
  let cs := pyStrip s.data
  cs.isEmpty || cs.any isBadControl || startsWithOp cs || endsWithOp cs || claimOpRun cs

/-! ### Transaction boundaries of the validation-failure path

`submit_command`'s validation-failure branch issues TWO separate commits:
`db.commit()` at commands.py line 132 (the REJECTED `Command` row) and
`db.commit()` at line 146 (the `AuditLog` row).  The list below is the
sequence of committed database states this produces; a storage failure
between the two commits leaves the database in the first (intermediate)
state. -/
def submitInvalidCommitStates (now : Nat) (st : DBState) (u : User)
    (text : String) : List DBState :=
  [{ st with
      commands := st.commands ++ [validationRejectCmd st u text now]
      next_command_id := st.next_command_id + 1 },
   { st with
      commands := st.commands ++ [validationRejectCmd st u text now]
      audit_logs := st.audit_logs ++ [validationRejectAudit st u text]
      next_command_id := st.next_command_id + 1 }]

/-- The last committed state of the two-commit sequence is the end-to-end
state `submit_command` produces on a validation failure (so the sequence is
a faithful decomposition of the branch). -/
theorem submitInvalidCommitStates_last (reSearch : ReSearch) (now : Nat)
    (st : DBState) (u : User) (text : String)
    (hv : (validate_command text).1 = false) :
    (submitInvalidCommitStates now st u text).getLast? =
      some (submit_command reSearch now st u text).1 := by
  rw [submit_command_invalid reSearch now st u text hv]
  rfl

/-! ### Concrete fixtures -/

/-- A regex capability where every pattern compiles and never matches. -/
def exSearch : ReSearch := fun _ _ => some false

/-- A regex capability where every pattern compiles and always matches. -/
def exSearch2 : ReSearch := fun _ _ => some true

def exUser : User := ⟨1, "alice", UserRole.MEMBER, 5⟩

def exAdmin : User := ⟨2, "admin", UserRole.ADMIN, 100⟩

def exPoorUser : User := ⟨3, "bob", UserRole.MEMBER, 0⟩

/-- A fresh database with one member holding 5 credits. -/
def exSt : DBState := ⟨[exUser], [], [], [], [], 1, 1⟩

/-- A fresh database with a member and an admin. -/
def exSt2 : DBState := ⟨[exUser, exAdmin], [], [], [], [], 1, 1⟩

def exRule : Rule := ⟨1, "^sudo", RuleAction.REQUIRE_APPROVAL, none, 0⟩

/-- A command parked in PENDING_APPROVAL, submitted by the 0-credit user. -/
def exPendingCmd : Command :=
  ⟨1, "sudo reboot", CommandStatus.PENDING_APPROVAL, 3, some 1, 0,
   some "Command requires admin approval", 0, none⟩

def exApproval : ApprovalRequest := ⟨1, 1, 3, "pending", none, none⟩

/-- A database holding a pending approval request whose submitter has 0
credits. -/
def exSt3 : DBState :=
  ⟨[exPoorUser, exAdmin], [exRule], [exPendingCmd], [exApproval], [], 2, 2⟩

/-- The intermediate committed state after the first commit of the
validation-failure branch on the empty submission. -/
def exMidState : DBState :=
  { exSt with
      commands := exSt.commands ++ [validationRejectCmd exSt exUser "" 0]
      next_command_id := exSt.next_command_id + 1 }

/-! ### Claim theorems -/

/-- C1: for every command and user with positive credits, the shared
execution step `execute_command` succeeds and decrements the user's balance
by exactly 1, sets `credits_deducted = 1`, sets status EXECUTED, sets the
result to the string built from the command text and the fixed "SUCCESS"
marker, sets the execution timestamp, and stages exactly one audit entry
with the execution action-kind `COMMAND_EXECUTED`. -/
theorem C1_execute_command_success (now : Nat) (cmd : Command) (user : User)
    (h : 0 < user.credits) :
    ∃ cmd2 user2 audit,
      execute_command now cmd user = some (cmd2, user2, audit) ∧
      user2.id = user.id ∧
      user2.credits = user.credits - 1 ∧
      cmd2.credits_deducted = 1 ∧
      cmd2.status = CommandStatus.EXECUTED ∧
      cmd2.result = some (format_command_result cmd.command_text "SUCCESS") ∧
      cmd2.executed_at = some now ∧
      audit.action = "COMMAND_EXECUTED" ∧
      audit.user_id = user.id := by
  unfold execute_command
  rw [if_neg (by omega)]
  exact ⟨_, _, _, rfl, rfl, rfl, rfl, rfl, rfl, rfl, rfl, rfl⟩

/-- Witness for C1 at a concrete command and a user holding 5 credits. -/
theorem C1_witness :
    0 < exUser.credits ∧
    ∃ cmd2 user2 audit,
      execute_command 7 exPendingCmd exUser = some (cmd2, user2, audit) ∧
      user2.id = exUser.id ∧
      user2.credits = exUser.credits - 1 ∧
      cmd2.credits_deducted = 1 ∧
      cmd2.status = CommandStatus.EXECUTED ∧
      cmd2.result = some (format_command_result exPendingCmd.command_text "SUCCESS") ∧
      cmd2.executed_at = some 7 ∧
      audit.action = "COMMAND_EXECUTED" ∧
      audit.user_id = exUser.id :=
  ⟨by decide, C1_execute_command_success 7 exPendingCmd exUser (by decide)⟩

/-- C4: the Rule Matcher equals first-match search over the rule table
sorted ascending by (priority, id) — a stable sort of the rule table —
using the boolean outcome of the regex search capability; rules whose
pattern fails to compile (capability returns `none`) are skipped without
aborting the scan. -/
theorem C4_rule_matcher (reSearch : ReSearch) (text : String) (rules : List Rule) :
    match_command_against_rules reSearch text rules =
      (sortRules rules).find? (fun r => reSearch r.pattern text == some true) ∧
    List.Sorted ruleLe (sortRules rules) ∧
    (sortRules rules).Perm rules ∧
    match_command_against_rules reSearch text rules =
      matchLoop reSearch text
        ((sortRules rules).filter (fun r => (reSearch r.pattern text).isSome)) := by
  refine ⟨matchLoop_eq_find reSearch text (sortRules rules), ?_, ?_,
    matchLoop_filter_isSome reSearch text (sortRules rules)⟩
  · exact List.sorted_insertionSort ruleLe rules
  · exact List.perm_insertionSort ruleLe rules

/-- C9 counterexample: the claim says any mixed operator run such as `;&` is
rejected, but `validate_command` accepts the text `a;&b` (only homogeneous
runs `;;`, `||`, `&&` are rejected). -/
theorem C9_counterexample :
    claimRejects "a;&b" = true ∧ validate_command "a;&b" = (true, "") := by
  constructor <;> decide

/-- C9 (amended): the Validator rejects exactly when, after stripping, the
text is empty, contains a character of the class
`[\x00-\x08\x0B\x0C\x0E-\x1F]`, starts or ends with one of `;`, `&`, `|`,
or contains two adjacent copies of the SAME operator (`;;`, `||`, `&&`);
mixed adjacent operators are accepted. -/
theorem C9_amended_validator_characterization (s : String) :
    (validate_command s).1 = false ↔ codeRejects s = true := by
  unfold validate_command codeRejects
  dsimp only
  split_ifs <;> simp_all

/-- C3: a submission failing the Validator is persisted as a REJECTED
command whose result carries the validator's reason, with exactly one
rejection audit entry; the users table (hence every balance) is untouched,
the rule table is untouched, the outcome does not depend on the regex
capability (no rule is evaluated), and it does not depend on the submitting
user's balance (no credit check). -/
theorem C3_validation_failure_pipeline (reSearch reSearch2 : ReSearch) (now : Nat)
    (st : DBState) (u : User) (text : String) (c : Int)
    (hv : (validate_command text).1 = false) :
    submit_command reSearch now st u text =
      ({ st with
          commands := st.commands ++ [validationRejectCmd st u text now]
          audit_logs := st.audit_logs ++ [validationRejectAudit st u text]
          next_command_id := st.next_command_id + 1 },
       Except.ok (validationRejectCmd st u text now)) ∧
    (validationRejectCmd st u text now).status = CommandStatus.REJECTED ∧
    (validationRejectCmd st u text now).credits_deducted = 0 ∧
    (validationRejectCmd st u text now).result =
      some ("Invalid command: " ++ (validate_command text).2) ∧
    (validationRejectAudit st u text).action = "COMMAND_REJECTED" ∧
    (submit_command reSearch now st u text).1.users = st.users ∧
    (submit_command reSearch now st u text).1.rules = st.rules ∧
    submit_command reSearch now st u text = submit_command reSearch2 now st u text ∧
    submit_command reSearch now st { u with credits := c } text =
      submit_command reSearch now st u text := by
  have h1 := submit_command_invalid reSearch now st u text hv
  have h2 := submit_command_invalid reSearch2 now st u text hv
  have h3 := submit_command_invalid reSearch now st { u with credits := c } text hv
  exact ⟨h1, rfl, rfl, rfl, rfl, by rw [h1], by rw [h1],
    h1.trans h2.symm, h3.trans h1.symm⟩

/-- Witness for C3 at the empty submission (stripped-empty text). -/
theorem C3_witness :
    (validate_command "").1 = false ∧
    (submit_command exSearch 0 exSt exUser "" =
      ({ exSt with
          commands := exSt.commands ++ [validationRejectCmd exSt exUser "" 0]
          audit_logs := exSt.audit_logs ++ [validationRejectAudit exSt exUser ""]
          next_command_id := exSt.next_command_id + 1 },
       Except.ok (validationRejectCmd exSt exUser "" 0)) ∧
    (validationRejectCmd exSt exUser "" 0).status = CommandStatus.REJECTED ∧
    (validationRejectCmd exSt exUser "" 0).credits_deducted = 0 ∧
    (validationRejectCmd exSt exUser "" 0).result =
      some ("Invalid command: " ++ (validate_command "").2) ∧
    (validationRejectAudit exSt exUser "").action = "COMMAND_REJECTED" ∧
    (submit_command exSearch 0 exSt exUser "").1.users = exSt.users ∧
    (submit_command exSearch 0 exSt exUser "").1.rules = exSt.rules ∧
    submit_command exSearch 0 exSt exUser "" = submit_command exSearch2 0 exSt exUser "" ∧
    submit_command exSearch 0 exSt { exUser with credits := 0 } "" =
      submit_command exSearch 0 exSt exUser "") :=
  ⟨by decide, C3_validation_failure_pipeline exSearch exSearch2 0 exSt exUser "" 0 (by decide)⟩

/-- C7: a submission that passes validation from a user whose balance is
≤ 0 is refused with a 402 reported to the caller, the state is unchanged
(no Command row is persisted), and the outcome does not depend on the regex
capability (refusal happens before any rule matching). -/
theorem C7_insufficient_credits_refusal (reSearch reSearch2 : ReSearch) (now : Nat)
    (st : DBState) (u : User) (text : String)
    (hv : (validate_command text).1 = true) (hc : u.credits ≤ 0) :
    submit_command reSearch now st u text =
      (st, Except.error
        ⟨402, "Insufficient credits. Please contact admin to add more credits."⟩) ∧
    submit_command reSearch now st u text = submit_command reSearch2 now st u text := by
  have h1 := submit_command_noCredits reSearch now st u text hv hc
  have h2 := submit_command_noCredits reSearch2 now st u text hv hc
  exact ⟨h1, h1.trans h2.symm⟩

/-- Witness for C7: the 0-credit user submits a valid command. -/
theorem C7_witness :
    (validate_command "ls -la").1 = true ∧ exPoorUser.credits ≤ 0 ∧
    (submit_command exSearch 0 exSt3 exPoorUser "ls -la" =
      (exSt3, Except.error
        ⟨402, "Insufficient credits. Please contact admin to add more credits."⟩) ∧
    submit_command exSearch 0 exSt3 exPoorUser "ls -la" =
      submit_command exSearch2 0 exSt3 exPoorUser "ls -la") :=
  ⟨by decide, by decide,
   C7_insufficient_credits_refusal exSearch exSearch2 0 exSt3 exPoorUser "ls -la"
     (by decide) (by decide)⟩

/-- C5: approving a pending approval request whose linked user has credits
≤ 0 fails with a 402 and the whole review is rolled back: the returned state
is exactly the pre-review state, so the approval request is still pending
with no reviewer or review timestamp, the command is unchanged, and the
balance is unchanged. -/
theorem C5_approve_insufficient_rollback (now : Nat) (st : DBState) (aid : Nat)
    (admin : User) (reason : Option String)
    (approval : ApprovalRequest) (command : Command) (user : User)
    (ha : st.approvals.find? (fun a => a.id == aid && a.status == "pending") = some approval)
    (hc : st.commands.find? (fun c => c.id == approval.command_id) = some command)
    (hu : st.users.find? (fun v => v.id == command.user_id) = some user)
    (hcred : user.credits ≤ 0) :
    review_approval now st aid admin "approve" reason =
      (st, Except.error ⟨402, "Insufficient credits"⟩) := by
  apply review_approve_insufficient now admin reason ha hc hu
  unfold execute_command
  rw [if_pos hcred]

/-- Witness for C5: the pending request of the 0-credit user is approved. -/
theorem C5_witness :
    exSt3.approvals.find? (fun a => a.id == 1 && a.status == "pending") = some exApproval ∧
    exSt3.commands.find? (fun c => c.id == exApproval.command_id) = some exPendingCmd ∧
    exSt3.users.find? (fun v => v.id == exPendingCmd.user_id) = some exPoorUser ∧
    exPoorUser.credits ≤ 0 ∧
    review_approval 9 exSt3 1 exAdmin "approve" none =
      (exSt3, Except.error ⟨402, "Insufficient credits"⟩) :=
  ⟨by decide, by decide, by decide, by decide,
   C5_approve_insufficient_rollback 9 exSt3 1 exAdmin none exApproval exPendingCmd
     exPoorUser (by decide) (by decide) (by decide) (by decide)⟩

/-- C2: after any sequence of submissions, executions (inside submissions or
approvals) and approval reviews starting in an invariant-satisfying state,
every persisted command has `credits_deducted = 1` iff its status is
EXECUTED, and `credits_deducted = 0` for every other status. -/
theorem C2_credits_deducted_iff_executed (reSearch : ReSearch) (ops : List Op)
    (st : DBState) (h : GoodState st) :
    ∀ c ∈ (run reSearch st ops).commands,
      (c.credits_deducted = 1 ↔ c.status = CommandStatus.EXECUTED) ∧
      (c.status ≠ CommandStatus.EXECUTED → c.credits_deducted = 0) := by
  intro c hc
  have h1 := (run_preserves_good reSearch ops st h).1 c hc
  refine ⟨⟨?_, ?_⟩, ?_⟩
  · intro hcd
    by_contra hne
    rw [if_neg hne] at h1
    omega
  · intro hs
    rw [if_pos hs] at h1
    exact h1
  · intro hne
    rw [if_neg hne] at h1
    exact h1

/-- Witness for C2: a run with an executed submission, a rejected
submission, and a credits override. -/
theorem C2_witness :
    GoodState exSt2 ∧
    ∀ c ∈ (run exSearch exSt2
      [Op.submit 1 "ls -la" 0, Op.submit 1 "" 1,
       Op.setCredits 1 2 0, Op.submit 1 "ls" 2]).commands,
      (c.credits_deducted = 1 ↔ c.status = CommandStatus.EXECUTED) ∧
      (c.status ≠ CommandStatus.EXECUTED → c.credits_deducted = 0) :=
  ⟨by unfold GoodState CdStatusInv FreshInv ApprovalKeyInv PendingInv; decide,
   C2_credits_deducted_iff_executed exSearch
     [Op.submit 1 "ls -la" 0, Op.submit 1 "" 1,
      Op.setCredits 1 2 0, Op.submit 1 "ls" 2] exSt2
     (by unfold GoodState CdStatusInv FreshInv ApprovalKeyInv PendingInv; decide)⟩

/-- C10: no persisted command ever carries the interim status ACCEPTED:
starting from a state with no ACCEPTED command, after any sequence of
requests every stored command has one of the other three statuses (the
interim row is always overwritten before commit or rolled back). -/
theorem C10_no_accepted_status (reSearch : ReSearch) (ops : List Op)
    (st : DBState) (h : NoAcceptedInv st) :
    ∀ c ∈ (run reSearch st ops).commands, c.status ≠ CommandStatus.ACCEPTED :=
  run_preserves_noAccepted reSearch ops st h

/-- Witness for C10 on a run exercising the execute, reject and pending
paths. -/
theorem C10_witness :
    NoAcceptedInv exSt2 ∧
    ∀ c ∈ (run exSearch exSt2
      [Op.submit 1 "ls -la" 0, Op.submit 1 "" 1, Op.submit 1 "ls" 2]).commands,
      c.status ≠ CommandStatus.ACCEPTED :=
  ⟨by unfold NoAcceptedInv; decide,
   C10_no_accepted_status exSearch
     [Op.submit 1 "ls -la" 0, Op.submit 1 "" 1, Op.submit 1 "ls" 2] exSt2
     (by unfold NoAcceptedInv; decide)⟩

/-- C8 counterexample: the admin credits override is an unconditional
overwrite; called with a negative value it drives the target balance below
zero, refuting the claim that no operation makes a balance negative. -/
theorem C8_counterexample :
    CreditsNonneg exSt2 ∧
    ¬ CreditsNonneg (step exSearch exSt2 (Op.setCredits 1 2 (-3))) := by
  constructor
  · unfold CreditsNonneg
    decide
  · unfold CreditsNonneg
    decide

instance : DecidablePred OpKeepsNonneg := fun op => by
  cases op <;> unfold OpKeepsNonneg <;> infer_instance

/-- C8 (amended): submissions and approval reviews never drive a
non-negative balance negative (the decrement happens only at execution,
which is blocked at balance ≤ 0); the admin credits override preserves
non-negativity exactly when the supplied value is non-negative. -/
theorem C8_amended_nonneg_balances (reSearch : ReSearch) (ops : List Op)
    (st : DBState) (h : CreditsNonneg st)
    (hops : ∀ op ∈ ops, OpKeepsNonneg op) :
    CreditsNonneg (run reSearch st ops) :=
  run_preserves_nonneg reSearch ops st h hops

/-- Witness for the amended C8: a run with an execution and a non-negative
override. -/
theorem C8_witness :
    CreditsNonneg exSt2 ∧
    (∀ op ∈ [Op.submit 1 "ls -la" 0, Op.review 1 2 "approve" none 1,
             Op.setCredits 1 2 7], OpKeepsNonneg op) ∧
    CreditsNonneg (run exSearch exSt2
      [Op.submit 1 "ls -la" 0, Op.review 1 2 "approve" none 1,
       Op.setCredits 1 2 7]) :=
  ⟨by unfold CreditsNonneg; decide, by decide,
   C8_amended_nonneg_balances exSearch
     [Op.submit 1 "ls -la" 0, Op.review 1 2 "approve" none 1,
      Op.setCredits 1 2 7] exSt2
     (by unfold CreditsNonneg; decide) (by decide)⟩

/-- C6: the validation-failure outcome is NOT committed atomically.  The
branch issues two separate commits (commands.py lines 132 and 146): the
committed-state sequence on the empty submission has an intermediate state
in which the REJECTED command row is persisted while its audit entry is not,
so a storage failure between the commits leaves a subset of the outcome's
writes persisted. -/
theorem C6_two_commit_window :
    submitInvalidCommitStates 0 exSt exUser "" =
      [exMidState, (submit_command exSearch 0 exSt exUser "").1] ∧
    exMidState.commands = exSt.commands ++ [validationRejectCmd exSt exUser "" 0] ∧
    exMidState.audit_logs = exSt.audit_logs := by
  refine ⟨?_, rfl, rfl⟩
  rw [submit_command_invalid exSearch 0 exSt exUser "" (by decide)]
  rfl

end Gateway
